import Mathlib

/-!
Shallow embedding of `src/value.rs` from the llvm-rs repository: the typed
wrappers `Value`, `Arg` and `Function` over opaque native handles, and the
`Attribute` bit-flag enumeration, together with the calls they make into the
external IR engine.  Handles are modelled as natural numbers; the engine's
state (attribute bitmasks per handle and per channel, symbol names, parameter
tables) is modelled explicitly, and each wrapper method is a function on that
state, mirroring the body of the Rust method call for call.
-/

/-- The `Attribute` enumeration from `value.rs`, one constructor per variant. -/
inductive Attribute where
  | ZExt
  | SExt
  | NoReturn
  | InReg
  | StructRet
  | NoUnwind
  | NoAlias
  | ByVal
  | Nest
  | ReadNone
  | ReadOnly
  | NoInline
  | AlwaysInline
  | OptimizeForSize
  | StackProtect
  | StackProtectReq
  | Alignment
  | NoCapture
  | NoRedZone
  | NoImplicitFloat
  | Naked
  | InlineHint
  | StackAlignment
  | ReturnsTwice
  | UWTable
  | NonLazyBind
deriving DecidableEq, Fintype

/-- The discriminant of each `Attribute` variant, exactly the binary constants
written in `value.rs` (the `repr(C)` value that `From<Attribute> for
LLVMAttribute` transmutes into the native bitmask). -/
def attrVal : Attribute → Nat
  | .ZExt =>            0b1
  | .SExt =>            0b10
  | .NoReturn =>        0b100
  | .InReg =>           0b1000
  | .StructRet =>       0b10000
  | .NoUnwind =>        0b100000
  | .NoAlias =>         0b1000000
  | .ByVal =>           0b10000000
  | .Nest =>            0b100000000
  | .ReadNone =>        0b1000000000
  | .ReadOnly =>        0b10000000000
  | .NoInline =>        0b100000000000
  | .AlwaysInline =>    0b1000000000000
  | .OptimizeForSize => 0b10000000000000
  | .StackProtect =>    0b100000000000000
  | .StackProtectReq => 0b1000000000000000
  | .Alignment =>       0b10000000000000000
  | .NoCapture =>       0b100000000000000000
  | .NoRedZone =>       0b1000000000000000000
  | .NoImplicitFloat => 0b10000000000000000000
  | .Naked =>           0b100000000000000000000
  | .InlineHint =>      0b1000000000000000000000
  | .StackAlignment =>  0b11100000000000000000000000000
  | .ReturnsTwice =>    0b100000000000000000000000000000
  | .UWTable =>         0b1000000000000000000000000000000
  | .NonLazyBind =>     0b10000000000000000000000000000000

/-- Every `Attribute` variant, in declaration order. -/
def Attribute.all : List Attribute :=
  [.ZExt, .SExt, .NoReturn, .InReg, .StructRet, .NoUnwind, .NoAlias, .ByVal,
   .Nest, .ReadNone, .ReadOnly, .NoInline, .AlwaysInline, .OptimizeForSize,
   .StackProtect, .StackProtectReq, .Alignment, .NoCapture, .NoRedZone,
   .NoImplicitFloat, .Naked, .InlineHint, .StackAlignment, .ReturnsTwice,
   .UWTable, .NonLazyBind]

/-- `From<LLVMAttribute> for Attribute` is a raw `transmute` of the native
bitmask into the enumeration: the result denotes an enumeration member exactly
when the mask equals one of the declared discriminants.  This partial inverse
of `attrVal` captures the set of masks on which the reinterpretation is a
valid member; any other mask (e.g. a union of two bits) is no member at all. -/
def attribute_from_native (n : Nat) : Option Attribute :=
  Attribute.all.find? (fun a => attrVal a == n)

/-- The external engine's documented attribute layout (the `LLVMAttribute`
enumeration of the LLVM-C API, which the spec calls "the engine's documented
layout"): boolean bits in order up to `StackProtectReq`, then a 5-bit
argument-alignment field at bit 16, `NoCapture` through `InlineHint` at bits
21..25, a 3-bit stack-alignment field at bit 26, and the last three bits at
29..31. -/
def llvmDocumentedVal : Attribute → Nat
  | .ZExt =>            1 <<< 0
  | .SExt =>            1 <<< 1
  | .NoReturn =>        1 <<< 2
  | .InReg =>           1 <<< 3
  | .StructRet =>       1 <<< 4
  | .NoUnwind =>        1 <<< 5
  | .NoAlias =>         1 <<< 6
  | .ByVal =>           1 <<< 7
  | .Nest =>            1 <<< 8
  | .ReadNone =>        1 <<< 9
  | .ReadOnly =>        1 <<< 10
  | .NoInline =>        1 <<< 11
  | .AlwaysInline =>    1 <<< 12
  | .OptimizeForSize => 1 <<< 13
  | .StackProtect =>    1 <<< 14
  | .StackProtectReq => 1 <<< 15
  | .Alignment =>       31 <<< 16
  | .NoCapture =>       1 <<< 21
  | .NoRedZone =>       1 <<< 22
  | .NoImplicitFloat => 1 <<< 23
  | .Naked =>           1 <<< 24
  | .InlineHint =>      1 <<< 25
  | .StackAlignment =>  7 <<< 26
  | .ReturnsTwice =>    1 <<< 29
  | .UWTable =>         1 <<< 30
  | .NonLazyBind =>     1 <<< 31

/-- `LLVMAttribute::contains` from the bitflags crate: every bit of `m` is set
in `x`. -/
def maskContains (x m : Nat) : Bool := (x &&& m) == m

/-- Clearing the bits of `m` out of `x` (the effect of the engine's
attribute-removal call): `x ^^^ (x &&& m)` has exactly the bits of `x` that are
not in `m`. -/
def clearBits (x m : Nat) : Nat := x ^^^ (x &&& m)

/-- The state of the external IR engine, as far as `value.rs` observes and
mutates it.  Handles are natural numbers.  Attribute bitmasks live in two
distinct channels, matching the two families of engine entry points the source
calls: `argAttrs` is read and written by `LLVMAddAttribute` /
`LLVMGetAttribute` / `LLVMRemoveAttribute` (the parameter-attribute calls,
whose formal parameter is an argument handle), and `fnAttrs` by
`LLVMAddFunctionAttr` / `LLVMGetFunctionAttr` (the function-attribute calls).
`names` is the symbol-table name of each handle, where `none` models the
engine returning a null pointer for an unnamed operand; `paramCount` and
`params` are a function handle's parameter count and parameter handles;
`typeOf` is the rendered type of a handle as the engine prints it. -/
structure EngineState where
  argAttrs : Nat → Nat
  fnAttrs : Nat → Nat
  names : Nat → Option String
  paramCount : Nat → Nat
  params : Nat → Nat → Nat
  typeOf : Nat → String

/-- One call into the external engine, recorded so that "issues exactly one
combined update" claims are about an explicit call trace. -/
inductive EngineCall where
  | addAttribute : Nat → Nat → EngineCall
  | addFunctionAttr : Nat → Nat → EngineCall
  | setValueName : Nat → String → EngineCall
deriving DecidableEq

/-- Engine entry point `LLVMAddAttribute(arg, mask)`: ORs `mask` into the
argument-attribute channel of handle `h`. -/
def LLVMAddAttribute (s : EngineState) (h m : Nat) : EngineState :=
  { s with argAttrs := fun g => if g = h then s.argAttrs g ||| m else s.argAttrs g }

/-- Engine entry point `LLVMGetAttribute(arg)`: the argument-attribute bitmask
of handle `h`. -/
def LLVMGetAttribute (s : EngineState) (h : Nat) : Nat := s.argAttrs h

/-- Engine entry point `LLVMRemoveAttribute(arg, mask)`: clears the bits of
`mask` from the argument-attribute channel of handle `h`. -/
def LLVMRemoveAttribute (s : EngineState) (h m : Nat) : EngineState :=
  { s with argAttrs := fun g => if g = h then clearBits (s.argAttrs g) m else s.argAttrs g }

/-- Engine entry point `LLVMAddFunctionAttr(fn, mask)`: ORs `mask` into the
function-attribute channel of handle `h`. -/
def LLVMAddFunctionAttr (s : EngineState) (h m : Nat) : EngineState :=
  { s with fnAttrs := fun g => if g = h then s.fnAttrs g ||| m else s.fnAttrs g }

/-- Engine entry point `LLVMGetFunctionAttr(fn)`: the function-attribute
bitmask of handle `h`. -/
def LLVMGetFunctionAttr (s : EngineState) (h : Nat) : Nat := s.fnAttrs h

/-- Engine entry point `LLVMSetValueName(val, name)`: records `name` as the
symbol name of handle `h`. -/
def LLVMSetValueName (s : EngineState) (h : Nat) (n : String) : EngineState :=
  { s with names := fun g => if g = h then some n else s.names g }

/-- Engine entry point `LLVMGetValueName(val)`: the name buffer of handle `h`,
`none` standing for a null pointer. -/
def LLVMGetValueName (s : EngineState) (h : Nat) : Option String := s.names h

/-- Engine entry point `LLVMCountParams(fn)`. -/
def LLVMCountParams (s : EngineState) (h : Nat) : Nat := s.paramCount h

/-- Engine entry point `LLVMGetParam(fn, i)`. -/
def LLVMGetParam (s : EngineState) (h i : Nat) : Nat := s.params h i

/-- Modelled from the spec: `util::to_null_str` (in the repository's `util`
module, not under `src/`) decodes the engine's name buffer as a tri-state —
a null pointer becomes `None`, a non-null buffer (possibly empty) becomes
`Some` of its contents. -/
def to_null_str : Option String → Option String
  | none => none
  | some s => some s

/-- Modelled from the spec: `util::to_str` (in the repository's `util` module,
not under `src/`) decodes a non-null, null-terminated buffer into a plain
string; a function handle's name buffer is never null, so the `""` default for
a null buffer is outside the contract. -/
def to_str (buf : Option String) : String := buf.getD ""

/-- `CString::new(name)` from the native string-marshalling layer: fails
(`None`) exactly when the string contains an embedded null byte, since the
native representation is null-terminated. -/
def cstring_new (s : String) : Option String :=
  if s.data.contains (Char.ofNat 0) then none else some s

/-- `Value::get_name` from `value.rs`: reads the name buffer from the engine
and decodes it with `to_null_str`. -/
def Value.get_name (s : EngineState) (h : Nat) : Option String :=
  to_null_str (LLVMGetValueName s h)

/-- `Value::set_name` from `value.rs`: `CString::new(name).unwrap()` aborts on
an embedded null byte before the engine is called (`Except.error`, no state
and no call produced); otherwise it issues the single `LLVMSetValueName`
call. -/
def Value.set_name (st : EngineState) (h : Nat) (name : String) :
    Except String (EngineState × List EngineCall) :=
  match cstring_new name with
  | none => Except.error "nul byte in string"
  | some c => Except.ok (LLVMSetValueName st h c, [EngineCall.setValueName h c])

/-- `Arg::add_attribute` from `value.rs`. -/
def Arg.add_attribute (s : EngineState) (h : Nat) (attr : Attribute) : EngineState :=
  LLVMAddAttribute s h (attrVal attr)

/-- `Arg::add_attributes` from `value.rs`: folds the bitwise OR of the given
attributes into a local `sum` starting from the empty mask, then issues the
single `LLVMAddAttribute` call with the combined mask.  Returns the new engine
state together with the list of engine calls issued. -/
def Arg.add_attributes (s : EngineState) (h : Nat) (attrs : List Attribute) :
    EngineState × List EngineCall :=
  let sum := attrs.foldl (fun acc a => acc ||| attrVal a) 0
  (LLVMAddAttribute s h sum, [EngineCall.addAttribute h sum])

/-- `Arg::has_attribute` from `value.rs`: reads the current mask with
`LLVMGetAttribute` and tests it with `contains`. -/
def Arg.has_attribute (s : EngineState) (h : Nat) (attr : Attribute) : Bool :=
  maskContains (LLVMGetAttribute s h) (attrVal attr)

/-- `Arg::remove_attribute` from `value.rs`. -/
def Arg.remove_attribute (s : EngineState) (h : Nat) (attr : Attribute) : EngineState :=
  LLVMRemoveAttribute s h (attrVal attr)

/-- `Function::add_attribute` from `value.rs`: uses the function-attribute
channel `LLVMAddFunctionAttr`. -/
def Function.add_attribute (s : EngineState) (h : Nat) (attr : Attribute) : EngineState :=
  LLVMAddFunctionAttr s h (attrVal attr)

/-- `Function::add_attributes` from `value.rs`: same local fold as the `Arg`
version, then one `LLVMAddFunctionAttr` call with the combined mask. -/
def Function.add_attributes (s : EngineState) (h : Nat) (attrs : List Attribute) :
    EngineState × List EngineCall :=
  let sum := attrs.foldl (fun acc a => acc ||| attrVal a) 0
  (LLVMAddFunctionAttr s h sum, [EngineCall.addFunctionAttr h sum])

/-- `Function::has_attribute` from `value.rs`: reads the function-attribute
channel with `LLVMGetFunctionAttr` and tests with `contains`. -/
def Function.has_attribute (s : EngineState) (h : Nat) (attr : Attribute) : Bool :=
  maskContains (LLVMGetFunctionAttr s h) (attrVal attr)

/-- `Function::remove_attribute` from `value.rs`.  Note: the source calls
`core::LLVMRemoveAttribute` here — the argument-attribute removal entry point
— not `LLVMRemoveFunctionAttr`, so the removal lands on the argument-attribute
channel of the function handle while `has_attribute` reads the
function-attribute channel. -/
def Function.remove_attribute (s : EngineState) (h : Nat) (attr : Attribute) : EngineState :=
  LLVMRemoveAttribute s h (attrVal attr)

/-- `impl Index<usize> for Function` from `value.rs`: queries the parameter
count live from the engine; in bounds it returns the engine's parameter
handle, out of bounds it aborts with "no such index {index} on {type}", where
the type is the `Debug` rendering of `self.get_type()`. -/
def Function.index (s : EngineState) (f i : Nat) : Except String Nat :=
  if i < LLVMCountParams s f then
    Except.ok (LLVMGetParam s f i)
  else
    Except.error ("no such index " ++ toString i ++ " on " ++ s.typeOf f)

/-- `Function::get_name` from `value.rs`: reads the name buffer and decodes it
with `to_str`, returning a plain (non-optional) string. -/
def Function.get_name (s : EngineState) (h : Nat) : String :=
  to_str (LLVMGetValueName s h)

/-- A concrete engine state used to instantiate the theorems: no attributes
set anywhere, no handle named, every function handle reporting two parameters
with distinct parameter handles. -/
def sampleState : EngineState where
  argAttrs := fun _ => 0
  fnAttrs := fun _ => 0
  names := fun _ => none
  paramCount := fun _ => 2
  params := fun f i => 100 + 10 * f + i
  typeOf := fun _ => "i32 (i32, i32)"

/-- The sample state after the engine has recorded the name "main" for
handle 0, as a named function would have. -/
def namedState : EngineState := LLVMSetValueName sampleState 0 "main"

/-! ### Helper lemmas about bitmasks and the engine operations -/

lemma land_lor_self_left (x a b : Nat) : (x ||| (a ||| b)) &&& a = a := by
  apply Nat.eq_of_testBit_eq
  intro i
  simp only [Nat.testBit_land, Nat.testBit_lor]
  cases a.testBit i <;> simp

lemma clearBits_land_self (y a : Nat) : clearBits y a &&& a = 0 := by
  apply Nat.eq_of_testBit_eq
  intro i
  simp only [clearBits, Nat.testBit_land, Nat.testBit_xor, Nat.zero_testBit]
  cases a.testBit i <;> cases y.testBit i <;> simp

lemma clearBits_of_disjoint (x a : Nat) (h : x &&& a = 0) : clearBits x a = x := by
  simp [clearBits, h]

lemma maskContains_lor_left (x a b : Nat) : maskContains (x ||| (a ||| b)) a = true := by
  simp [maskContains, land_lor_self_left]

lemma maskContains_lor_right (x a b : Nat) : maskContains (x ||| (a ||| b)) b = true := by
  rw [Nat.lor_comm a b]
  exact maskContains_lor_left x b a

lemma attrVal_ne_zero (a : Attribute) : attrVal a ≠ 0 := by
  cases a <;> decide

lemma LLVMAddAttribute_comp (s : EngineState) (h m n : Nat) :
    LLVMAddAttribute (LLVMAddAttribute s h m) h n = LLVMAddAttribute s h (m ||| n) := by
  unfold LLVMAddAttribute
  congr 1
  funext g
  by_cases hg : g = h <;> simp [hg, Nat.lor_assoc]

lemma LLVMAddAttribute_zero (s : EngineState) (h : Nat) :
    LLVMAddAttribute s h 0 = s := by
  unfold LLVMAddAttribute
  have hfun : (fun g => if g = h then s.argAttrs g ||| 0 else s.argAttrs g) = s.argAttrs := by
    funext g
    by_cases hg : g = h <;> simp [hg]
  rw [hfun]

lemma LLVMAddFunctionAttr_comp (s : EngineState) (h m n : Nat) :
    LLVMAddFunctionAttr (LLVMAddFunctionAttr s h m) h n = LLVMAddFunctionAttr s h (m ||| n) := by
  unfold LLVMAddFunctionAttr
  congr 1
  funext g
  by_cases hg : g = h <;> simp [hg, Nat.lor_assoc]

lemma LLVMAddFunctionAttr_zero (s : EngineState) (h : Nat) :
    LLVMAddFunctionAttr s h 0 = s := by
  unfold LLVMAddFunctionAttr
  have hfun : (fun g => if g = h then s.fnAttrs g ||| 0 else s.fnAttrs g) = s.fnAttrs := by
    funext g
    by_cases hg : g = h <;> simp [hg]
  rw [hfun]

lemma foldl_lor_testBit (attrs : List Attribute) (acc : Nat) (i : Nat) :
    (attrs.foldl (fun acc a => acc ||| attrVal a) acc).testBit i =
      (acc.testBit i || attrs.any (fun a => (attrVal a).testBit i)) := by
  induction attrs generalizing acc with
  | nil => simp
  | cons a rest ih =>
      simp [List.foldl_cons, List.any_cons, ih, Nat.testBit_lor, Bool.or_assoc]

lemma foldl_lor_pair (A B : Attribute) :
    List.foldl (fun acc a => acc ||| attrVal a) 0 [A, B] = attrVal A ||| attrVal B := by
  show (0 ||| attrVal A) ||| attrVal B = _
  simp

/-! ### Claim theorems -/

/-- C1: for every function handle with parameter count `N` queried live from
the engine, `F[i]` with `i < N` succeeds and returns the engine's `i`-th
parameter handle (so two consecutive lookups of the same `i`, with no
intervening engine mutation, denote the same parameter), while any `i >= N`
aborts with a diagnostic that spells out the offending index and the rendered
type of the function. -/
theorem C1_function_index_contract (s : EngineState) (f i : Nat) :
    (i < LLVMCountParams s f →
      Function.index s f i = Except.ok (LLVMGetParam s f i) ∧
      Function.index s f i = Function.index s f i) ∧
    (LLVMCountParams s f ≤ i →
      Function.index s f i =
        Except.error ("no such index " ++ toString i ++ " on " ++ s.typeOf f)) := by
  constructor
  · intro hlt
    exact ⟨by simp [Function.index, hlt], rfl⟩
  · intro hge
    simp [Function.index, Nat.not_lt.mpr hge]

/-- Witness instantiating `C1_function_index_contract` on a concrete engine
state with two parameters: index 0 is in bounds and returns the parameter
handle, index 5 is out of bounds and aborts with the diagnostic containing the
index and the type. -/
theorem C1_function_index_contract_witness :
    (0 < LLVMCountParams sampleState 0 ∧
      Function.index sampleState 0 0 = Except.ok (LLVMGetParam sampleState 0 0)) ∧
    (LLVMCountParams sampleState 0 ≤ 5 ∧
      Function.index sampleState 0 5 =
        Except.error ("no such index " ++ toString 5 ++ " on " ++ sampleState.typeOf 0)) :=
  ⟨⟨by decide, ((C1_function_index_contract sampleState 0 0).1 (by decide)).1⟩,
   ⟨by decide, (C1_function_index_contract sampleState 0 5).2 (by decide)⟩⟩

/-- C2 fails on the code: on an `Arg` receiver, add then remove then query
yields `false` as claimed, but on a `Function` receiver,
`Function::remove_attribute` issues the argument-channel removal call
`LLVMRemoveAttribute` instead of `LLVMRemoveFunctionAttr`, so the
function-attribute bit set by `Function::add_attribute` stays set and
`has_attribute` still reports `true` after the removal. -/
theorem C2_function_remove_attribute_bug :
    Arg.has_attribute
      (Arg.remove_attribute (Arg.add_attribute sampleState 0 Attribute.NoReturn)
        0 Attribute.NoReturn) 0 Attribute.NoReturn = false ∧
    Function.has_attribute
      (Function.remove_attribute (Function.add_attribute sampleState 0 Attribute.NoReturn)
        0 Attribute.NoReturn) 0 Attribute.NoReturn = true := by
  decide

/-- C3 fails on the code: the `Alignment` discriminant is the single bit
`2 ^ 16`, not the documented 5-bit field `31 * 2 ^ 16` (even though the
source's own comment says "5 bits"), and consequently `NoCapture` through
`InlineHint` sit four bit positions below the engine's documented layout;
only the `StackAlignment` field (3 bits at offset 26) and the remaining
variants match the documented constants. -/
theorem C3_attribute_layout_bug :
    attrVal Attribute.Alignment = 2 ^ 16 ∧
    llvmDocumentedVal Attribute.Alignment = 31 * 2 ^ 16 ∧
    attrVal Attribute.Alignment ≠ llvmDocumentedVal Attribute.Alignment ∧
    attrVal Attribute.NoCapture = 2 ^ 17 ∧
    llvmDocumentedVal Attribute.NoCapture = 2 ^ 21 ∧
    attrVal Attribute.NoCapture ≠ llvmDocumentedVal Attribute.NoCapture ∧
    attrVal Attribute.InlineHint ≠ llvmDocumentedVal Attribute.InlineHint ∧
    attrVal Attribute.StackAlignment = llvmDocumentedVal Attribute.StackAlignment ∧
    attrVal Attribute.StackAlignment = 7 * 2 ^ 26 := by
  decide

/-- C9: the `From<LLVMAttribute> for Attribute` transmute is not total over
valid engine bitmasks: the union mask `3 = ZExt ||| SExt` (which the engine
returns after adding both bits) equals no discriminant of the enumeration, so
the reinterpretation denotes no member there, although on each single
discriminant the round-trip is the identity. -/
theorem C9_from_native_not_total :
    attrVal Attribute.ZExt ||| attrVal Attribute.SExt = 3 ∧
    (∀ a : Attribute, attrVal a ≠ 3) ∧
    attribute_from_native 3 = none ∧
    (∀ a : Attribute, attribute_from_native (attrVal a) = some a) := by
  decide

/-- C4: for every attribute list, `add_attributes` (on an `Arg` and on a
`Function`) issues exactly one engine call, whose mask is the bitwise union of
all the given attribute masks (bit `i` of the combined mask is set iff some
listed attribute has bit `i` set), and the resulting state is that single
combined update — no per-attribute calls, so no intermediate state is
visible. -/
theorem C4_add_attributes_single_call (s : EngineState) (h : Nat) (attrs : List Attribute) :
    ∃ m, (Arg.add_attributes s h attrs).2 = [EngineCall.addAttribute h m] ∧
      (Function.add_attributes s h attrs).2 = [EngineCall.addFunctionAttr h m] ∧
      (Arg.add_attributes s h attrs).1 = LLVMAddAttribute s h m ∧
      (Function.add_attributes s h attrs).1 = LLVMAddFunctionAttr s h m ∧
      ∀ i, m.testBit i = attrs.any (fun a => (attrVal a).testBit i) := by
  refine ⟨attrs.foldl (fun acc a => acc ||| attrVal a) 0, rfl, rfl, rfl, rfl, ?_⟩
  intro i
  rw [foldl_lor_testBit]
  simp

/-- C5: adding `[A, B]` in one combined call sets both `has_attribute A` and
`has_attribute B` on either receiver, leaves the engine in exactly the state
reached by `add_attribute A` followed by `add_attribute B`, and the state is
independent of the order of `A` and `B`. -/
theorem C5_add_attributes_pair (s : EngineState) (h : Nat) (A B : Attribute) :
    (Arg.has_attribute (Arg.add_attributes s h [A, B]).1 h A = true ∧
      Arg.has_attribute (Arg.add_attributes s h [A, B]).1 h B = true ∧
      Function.has_attribute (Function.add_attributes s h [A, B]).1 h A = true ∧
      Function.has_attribute (Function.add_attributes s h [A, B]).1 h B = true) ∧
    ((Arg.add_attributes s h [A, B]).1 = Arg.add_attribute (Arg.add_attribute s h A) h B ∧
      (Function.add_attributes s h [A, B]).1 =
        Function.add_attribute (Function.add_attribute s h A) h B) ∧
    ((Arg.add_attributes s h [A, B]).1 = (Arg.add_attributes s h [B, A]).1 ∧
      (Function.add_attributes s h [A, B]).1 = (Function.add_attributes s h [B, A]).1) := by
  refine ⟨⟨?_, ?_, ?_, ?_⟩, ⟨?_, ?_⟩, ⟨?_, ?_⟩⟩
  · simp [Arg.has_attribute, Arg.add_attributes, foldl_lor_pair, LLVMAddAttribute,
      LLVMGetAttribute, maskContains_lor_left]
  · simp [Arg.has_attribute, Arg.add_attributes, foldl_lor_pair, LLVMAddAttribute,
      LLVMGetAttribute, maskContains_lor_right]
  · simp [Function.has_attribute, Function.add_attributes, foldl_lor_pair,
      LLVMAddFunctionAttr, LLVMGetFunctionAttr, maskContains_lor_left]
  · simp [Function.has_attribute, Function.add_attributes, foldl_lor_pair,
      LLVMAddFunctionAttr, LLVMGetFunctionAttr, maskContains_lor_right]
  · simp [Arg.add_attributes, Arg.add_attribute, foldl_lor_pair, LLVMAddAttribute_comp]
  · simp [Function.add_attributes, Function.add_attribute, foldl_lor_pair,
      LLVMAddFunctionAttr_comp]
  · simp [Arg.add_attributes, foldl_lor_pair]
    rw [Nat.lor_comm]
  · simp [Function.add_attributes, foldl_lor_pair]
    rw [Nat.lor_comm]

/-- C10: calling `add_attributes` with the empty slice issues the single
engine update with the all-zero mask — the identity of bitwise union — so the
engine state is unchanged and every subsequent `has_attribute` answer is
exactly what it was before the call, on both receivers. -/
theorem C10_add_attributes_empty (s : EngineState) (h : Nat) :
    Arg.add_attributes s h [] = (s, [EngineCall.addAttribute h 0]) ∧
    Function.add_attributes s h [] = (s, [EngineCall.addFunctionAttr h 0]) ∧
    (∀ A, Arg.has_attribute (Arg.add_attributes s h []).1 h A = Arg.has_attribute s h A) ∧
    (∀ A, Function.has_attribute (Function.add_attributes s h []).1 h A =
      Function.has_attribute s h A) := by
  have hArg : (Arg.add_attributes s h []).1 = s := LLVMAddAttribute_zero s h
  have hFn : (Function.add_attributes s h []).1 = s := LLVMAddFunctionAttr_zero s h
  refine ⟨?_, ?_, ?_, ?_⟩
  · show (LLVMAddAttribute s h 0, [EngineCall.addAttribute h 0]) = _
    rw [LLVMAddAttribute_zero]
  · show (LLVMAddFunctionAttr s h 0, [EngineCall.addFunctionAttr h 0]) = _
    rw [LLVMAddFunctionAttr_zero]
  · intro A
    rw [hArg]
  · intro A
    rw [hFn]

/-- C6: `Value::get_name` decodes the engine's name buffer as a tri-state — a
null buffer yields `none`, a non-null empty buffer yields `some ""` — and
`set_name ""` followed by `get_name` returns `some ""`, observably distinct
from a never-named operand's `none`. -/
theorem C6_get_name_tri_state (s : EngineState) (h : Nat) :
    (s.names h = none → Value.get_name s h = none) ∧
    (s.names h = some "" → Value.get_name s h = some "") ∧
    (∀ st calls, Value.set_name s h "" = Except.ok (st, calls) →
      Value.get_name st h = some "" ∧ Value.get_name st h ≠ none) := by
  refine ⟨?_, ?_, ?_⟩
  · intro hn
    simp [Value.get_name, LLVMGetValueName, to_null_str, hn]
  · intro hn
    simp [Value.get_name, LLVMGetValueName, to_null_str, hn]
  · intro st calls hok
    have hred : Value.set_name s h "" =
        Except.ok (LLVMSetValueName s h "", [EngineCall.setValueName h ""]) := rfl
    rw [hred] at hok
    simp only [Except.ok.injEq, Prod.mk.injEq] at hok
    rw [← hok.1]
    constructor <;> simp [Value.get_name, LLVMGetValueName, LLVMSetValueName, to_null_str]

/-- Witness instantiating `C6_get_name_tri_state` on the concrete unnamed
state: a never-named handle reads back `none`, and after `set_name ""` the
same handle reads back `some ""`. -/
theorem C6_get_name_tri_state_witness :
    Value.get_name sampleState 0 = none ∧
    Value.get_name (LLVMSetValueName sampleState 0 "") 0 = some "" :=
  ⟨(C6_get_name_tri_state sampleState 0).1 rfl,
   ((C6_get_name_tri_state sampleState 0).2.2 (LLVMSetValueName sampleState 0 "")
      [EngineCall.setValueName 0 ""] rfl).1⟩

/-- C7: `Value::set_name` on a string with an embedded null byte aborts at the
`CString` marshalling boundary — no engine call is issued and no new engine
state is produced — while any string without an embedded null byte proceeds to
the single `LLVMSetValueName` engine call. -/
theorem C7_set_name_nul_byte (st : EngineState) (h : Nat) (name : String) :
    (name.data.contains (Char.ofNat 0) = true →
      Value.set_name st h name = Except.error "nul byte in string") ∧
    (name.data.contains (Char.ofNat 0) = false →
      Value.set_name st h name =
        Except.ok (LLVMSetValueName st h name, [EngineCall.setValueName h name])) := by
  constructor <;> intro hn <;> unfold Value.set_name cstring_new <;> rw [hn] <;> simp

/-- Witness instantiating `C7_set_name_nul_byte`: the name "a\x00b" (with an
embedded null byte) aborts before the engine is called, and the name "f"
reaches the engine as the single set-name call. -/
theorem C7_set_name_nul_byte_witness :
    ("a\x00b".data.contains (Char.ofNat 0) = true ∧
      Value.set_name sampleState 0 "a\x00b" = Except.error "nul byte in string") ∧
    ("f".data.contains (Char.ofNat 0) = false ∧
      Value.set_name sampleState 0 "f" =
        Except.ok (LLVMSetValueName sampleState 0 "f", [EngineCall.setValueName 0 "f"])) :=
  ⟨⟨by decide, (C7_set_name_nul_byte sampleState 0 "a\x00b").1 (by decide)⟩,
   ⟨by decide, (C7_set_name_nul_byte sampleState 0 "f").2 (by decide)⟩⟩

/-- C8: `Function::get_name` decodes the name buffer with `to_str` and returns
the plain (non-optional) string — for every named handle it is the bare name
that the generic `Value::get_name` wraps in `some` — whereas the generic
`Value::get_name` on a never-named handle legitimately reports absence as
`none`. -/
theorem C8_function_get_name_plain (s : EngineState) (h : Nat) (n : String)
    (hn : s.names h = some n) :
    Function.get_name s h = n ∧ Value.get_name s h = some n ∧
    Value.get_name sampleState 0 = none := by
  refine ⟨?_, ?_, rfl⟩
  · simp [Function.get_name, LLVMGetValueName, to_str, hn]
  · simp [Value.get_name, LLVMGetValueName, to_null_str, hn]

/-- Witness instantiating `C8_function_get_name_plain` on the state where
handle 0 is named "main": the function form returns the bare string. -/
theorem C8_function_get_name_plain_witness :
    namedState.names 0 = some "main" ∧ Function.get_name namedState 0 = "main" :=
  ⟨rfl, (C8_function_get_name_plain namedState 0 "main" rfl).1⟩
